import Mathlib

/-!
Verification of the stack-frame variable-name resolver in
`src/canvas/inspect.py` and the job-submission wrapper in
`src/distributed/toolkits/classifier/logistic_classifier.py`,
via a shallow embedding of the Python code into Lean.
-/

namespace CanvasInspect

/-- A runtime object. Identity (`oid`) is the object's address-like identity;
`val` is its value, so two distinct objects can compare equal by value.
Modelled from the spec: `graphlab.canvas._same_object` is not under `src/`;
the spec describes it as "true iff `a` and `b` are the identical object
instance", so object identity is made explicit as the `oid` field. -/
structure Obj where
  oid : Nat
  val : Int
deriving DecidableEq, Repr

/-- Modelled from the spec: `graphlab.canvas._same_object(a, b)` — the
identity-comparison primitive (`a is b`): true iff the two references
denote the identical object instance. -/
def sameObject (a b : Obj) : Bool :=
  a.oid == b.oid

/-- The data of one call frame: `f_locals` as an association list in the
frame's iteration order, and `f_code.co_name`. -/
structure FrameData where
  locals : List (String × Obj)
  coName : String
deriving DecidableEq, Repr

/-- A frame reference as the Python code sees it: either `None` (`nil`) or a
frame (`cons`) holding its data and its `f_back` chain. -/
inductive Stack where
  | nil : Stack
  | cons : FrameData → Stack → Stack
deriving DecidableEq, Repr

/-- Substring test on lists of characters: `listContainsSub n h` is true iff
`n` occurs contiguously inside `h` (Python's `n in h` on strings). -/
def listPrefEq : List Char → List Char → Bool
  | [], _ => true
  | _ :: _, [] => false
  | a :: as, b :: bs => a == b && listPrefEq as bs

/-- Whether `n` occurs as a contiguous sublist of the second argument. -/
def listContainsSub (n : List Char) : List Char → Bool
  | [] => listPrefEq n []
  | c :: rest => listPrefEq n (c :: rest) || listContainsSub n rest

/-- Python `n in h` for strings: substring containment. -/
def strContains (n h : String) : Bool :=
  listContainsSub n.toList h.toList

/-- Python `s.startswith(p)`: prefix test on the character sequences. -/
def strStartsWith (p s : String) : Bool :=
  listPrefEq p.toList s.toList

/-- The skip predicate of `__climb_frame_stack`, line 52 of
`src/canvas/inspect.py`: `'self' in frame.f_locals.keys() or
'show' in frame.f_code.co_name`. -/
def skipFrame (d : FrameData) : Bool :=
  (d.locals.map Prod.fst).contains "self" || strContains "show" d.coName

/-- `__climb_frame_stack` (lines 48–54): while the skip predicate holds,
recurse on `frame.f_back`; calling it on `None` raises (`None.f_locals`
has no attribute), modelled as `Except.error ()`. On success it returns
the data of the first frame satisfying neither skip condition. -/
def climbFrameStack : Stack → Except Unit FrameData
  | Stack.nil => Except.error ()
  | Stack.cons d rest =>
    if skipFrame d then climbFrameStack rest else Except.ok d

/-- The scan loop of `_find_variable_name` (lines 25–32): iterate the chosen
frame's locals in order, skip names starting with an underscore, and return
the first binding whose object is identical to `var`; otherwise
`(None, None)`. The result is the Python pair of two optionals. -/
def scanLocals (var : Obj) : List (String × Obj) → Option String × Option Obj
  | [] => (none, none)
  | (k, v) :: rest =>
    if strStartsWith "_" k then scanLocals var rest
    else if sameObject var v then (some k, some v)
    else scanLocals var rest

/-- `_find_variable_name` (lines 14–32). `d0` is the data of the resolver's
own frame (`inspect.currentframe()`), `s1` its `f_back` chain.
Faithful to the `try`/`except` control flow:
* `s1 = nil`: `frame.f_back` is `None`, so `None.f_back` raises inside the
  `try`; `frame` is still the current frame, so the handler sets
  `finalFrame` to it and the scan runs over the resolver's own locals;
* `s1 = cons d1 nil`: `frame.f_back.f_back` evaluates to `None`, so `frame`
  becomes `None`; `__climb_frame_stack(None)` raises, the handler sets
  `finalFrame = None`, and `finalFrame.f_locals` on line 23 — outside the
  `try` — raises an uncaught `AttributeError`, modelled as `Except.error ()`;
* otherwise climbing starts at `frame.f_back.f_back`; if climbing runs past
  the top of the stack the raised error is caught and `finalFrame` is the
  frame climbing STARTED from (the local variable `frame` was never
  reassigned), whose locals are then scanned. -/
def findVariableName (var : Obj) (d0 : FrameData) (s1 : Stack) :
    Except Unit (Option String × Option Obj) :=
  match s1 with
  | Stack.nil => Except.ok (scanLocals var d0.locals)
  | Stack.cons _ Stack.nil => Except.error ()
  | Stack.cons _ (Stack.cons d2 s3) =>
    match climbFrameStack (Stack.cons d2 s3) with
    | Except.ok df => Except.ok (scanLocals var df.locals)
    | Except.error _ => Except.ok (scanLocals var d2.locals)

/-- `find_vars` (lines 34–45). The registration sink
(`target.add_variable`) is modelled by recording its calls: the result is
the visible return value (`variable_name`) together with the list of sink
calls made, each a pair of the path tuple and the object argument. An
uncaught exception from `_find_variable_name` propagates. -/
def find_vars (var : Obj) (d0 : FrameData) (s1 : Stack) :
    Except Unit (Option String × List (List String × Option Obj)) :=
  match findVariableName var d0 s1 with
  | Except.error e => Except.error e
  | Except.ok (vname, vobj) =>
    match vname with
    | some n => Except.ok (some n, [([n], vobj)])
    | none => Except.ok (none, [])

/-- Depth of a frame chain. -/
def stackDepth : Stack → Nat
  | Stack.nil => 0
  | Stack.cons _ s => stackDepth s + 1

/-- Fuel-instrumented version of `__climb_frame_stack`: `none` when the fuel
runs out before the recursion finishes. -/
def climbFrameStackFuel : Nat → Stack → Option (Except Unit FrameData)
  | 0, _ => none
  | _ + 1, Stack.nil => some (Except.error ())
  | fuel + 1, Stack.cons d rest =>
    if skipFrame d then climbFrameStackFuel fuel rest
    else some (Except.ok d)

/-- A binding is returnable by the scan loop when its name does not start
with an underscore and its object is identical to the target. -/
def goodBinding (var : Obj) (kv : String × Obj) : Bool :=
  !strStartsWith "_" kv.1 && sameObject var kv.2

end CanvasInspect

namespace DistributedLogistic

/-- The argument record of the single backend call `_sl.create(...)` made by
`submit_training_job` (lines 262–271 of
`src/distributed/toolkits/classifier/logistic_classifier.py`).
Hyperparameter values are opaque (`α`); the wrapper inspects only the
solver string and the model name. Fields are listed in the order the
arguments appear at the call site. -/
structure CreateCall (α : Type) where
  dataset : α
  target : α
  model_name : String
  env : α
  features : α
  validation_set : α
  l2_penalty : α
  l1_penalty : α
  feature_rescaling : α
  convergence_threshold : α
  step_size : α
  solver : String
  lbfgs_memory_level : α
  max_iterations : α
  class_weights : α
deriving DecidableEq

/-- `submit_training_job` (lines 10–18 and 256–273): track one metric event,
fix `model_name`, lowercase the solver, make the single `_sl.create` call
and return its result (`dml_obj`) unmodified. The backend `_sl.create` is
the function argument `create`; the result records the tracked metric
names, the list of backend calls made, and the value returned to the
caller. -/
def submit_training_job {α β : Type} (create : CreateCall α → β)
    (env dataset target features : α)
    (l2_penalty l1_penalty : α) (solver : String)
    (feature_rescaling convergence_threshold step_size : α)
    (lbfgs_memory_level max_iterations class_weights validation_set : α) :
    List String × List (CreateCall α) × β :=
  let tracked :=
    ["distributed.toolkit.classifier.logistic_classifier.submit_training_job"]
  let model_name := "classifier_logistic_regression"
  let solver2 := solver.toLower
  let call : CreateCall α :=
    CreateCall.mk dataset target model_name env features validation_set
      l2_penalty l1_penalty feature_rescaling convergence_threshold
      step_size solver2 lbfgs_memory_level max_iterations class_weights
  (tracked, [call], create call)

end DistributedLogistic

namespace CanvasInspect

/-- The scan loop returns exactly the first binding satisfying
`goodBinding`, as located by `List.find?`, or `(none, none)`. -/
theorem scanLocals_eq_find (var : Obj) (l : List (String × Obj)) :
    scanLocals var l =
      match l.find? (goodBinding var) with
      | some kv => (some kv.1, some kv.2)
      | none => (none, none) := by
  induction l with
  | nil => rfl
  | cons kv rest ih =>
    obtain ⟨k, v⟩ := kv
    cases hu : strStartsWith "_" k with
    | true => simp [scanLocals, List.find?, goodBinding, hu, ih]
    | false =>
      cases hm : sameObject var v with
      | true => simp [scanLocals, List.find?, goodBinding, hu, hm]
      | false => simp [scanLocals, List.find?, goodBinding, hu, hm, ih]

/-- Both components of a scan result are `none` together. -/
theorem scanLocals_none_iff (var : Obj) (l : List (String × Obj)) :
    (scanLocals var l).1 = none ↔ (scanLocals var l).2 = none := by
  rw [scanLocals_eq_find]
  cases l.find? (goodBinding var) <;> simp

/-- If no binding qualifies, the scan yields `(none, none)`. -/
theorem scanLocals_no_good (var : Obj) (l : List (String × Obj))
    (h : ∀ kv ∈ l, goodBinding var kv = false) :
    scanLocals var l = (none, none) := by
  rw [scanLocals_eq_find]
  have hf : l.find? (goodBinding var) = none := by
    rw [List.find?_eq_none]
    intro x hx
    simp [h x hx]
  rw [hf]

/-- A successful scan result comes from a qualifying binding in the list. -/
theorem scanLocals_some (var : Obj) (l : List (String × Obj))
    (n : String) (ob : Option Obj)
    (h : scanLocals var l = (some n, ob)) :
    ∃ v, ob = some v ∧ (n, v) ∈ l ∧
      strStartsWith "_" n = false ∧ sameObject var v = true := by
  rw [scanLocals_eq_find] at h
  cases hf : l.find? (goodBinding var) with
  | none => rw [hf] at h; simp at h
  | some kv =>
    rw [hf] at h
    obtain ⟨k, v⟩ := kv
    simp only [Prod.mk.injEq, Option.some.injEq] at h
    obtain ⟨hk, hob⟩ := h
    subst hk
    have hg := List.find?_some hf
    simp only [goodBinding, Bool.and_eq_true, Bool.not_eq_true'] at hg
    exact ⟨v, hob.symm, List.mem_of_find?_eq_some hf, hg.1, hg.2⟩

/-- Every normal return of `_find_variable_name` is the scan of some
frame's locals. -/
theorem findVariableName_ok_scan (var : Obj) (d0 : FrameData) (s1 : Stack)
    (r : Option String × Option Obj)
    (h : findVariableName var d0 s1 = Except.ok r) :
    ∃ l : List (String × Obj), scanLocals var l = r := by
  cases s1 with
  | nil =>
    refine ⟨d0.locals, ?_⟩
    simpa [findVariableName] using h
  | cons d1 s2 =>
    cases s2 with
    | nil => simp [findVariableName] at h
    | cons d2 s3 =>
      simp only [findVariableName] at h
      cases hc : climbFrameStack (Stack.cons d2 s3) with
      | ok df =>
        rw [hc] at h
        exact ⟨df.locals, by simpa using h⟩
      | error e =>
        rw [hc] at h
        exact ⟨d2.locals, by simpa using h⟩

end CanvasInspect

namespace CanvasInspect

/-- C1: for every object bound under a non-underscore local name in the
qualifying (chosen) frame — the frame climbing settles on — the resolver
returns the first such matching name in the frame's iteration order,
paired with the matched object. -/
theorem resolve_returns_first_matching_name
    (var : Obj) (d0 d1 d2 : FrameData) (s3 : Stack) (df : FrameData)
    (hclimb : climbFrameStack (Stack.cons d2 s3) = Except.ok df)
    (kv : String × Obj) (hmem : kv ∈ df.locals)
    (hgood : goodBinding var kv = true) :
    ∃ n v, df.locals.find? (goodBinding var) = some (n, v) ∧
      findVariableName var d0 (Stack.cons d1 (Stack.cons d2 s3))
        = Except.ok (some n, some v) := by
  cases hf : df.locals.find? (goodBinding var) with
  | none =>
    exfalso
    rw [List.find?_eq_none] at hf
    exact hf kv hmem hgood
  | some kv2 =>
    obtain ⟨n, v⟩ := kv2
    refine ⟨n, v, rfl, ?_⟩
    simp [findVariableName, hclimb, scanLocals_eq_find, hf]

/-- Witness for C1 at a concrete stack: `data` is bound to the target in
the qualifying user frame and is resolved. -/
theorem resolve_returns_first_matching_name_witness :
    findVariableName ⟨1, 0⟩ ⟨[], "currentframe"⟩
      (Stack.cons ⟨[], "find_vars"⟩
        (Stack.cons ⟨[("data", ⟨1, 0⟩)], "usercode"⟩ Stack.nil))
      = Except.ok (some "data", some ⟨1, 0⟩) := by
  obtain ⟨n, v, hf, h⟩ :=
    resolve_returns_first_matching_name ⟨1, 0⟩ ⟨[], "currentframe"⟩
      ⟨[], "find_vars"⟩ ⟨[("data", ⟨1, 0⟩)], "usercode"⟩ Stack.nil
      ⟨[("data", ⟨1, 0⟩)], "usercode"⟩ (by rfl)
      ("data", ⟨1, 0⟩) (by simp) (by rfl)
  have hf' : (([("data", (⟨1, 0⟩ : Obj))] : List (String × Obj)).find?
      (goodBinding ⟨1, 0⟩)) = some ("data", ⟨1, 0⟩) := by rfl
  have heq := hf'.symm.trans hf
  simp only [Option.some.injEq, Prod.mk.injEq] at heq
  obtain ⟨h1, h2⟩ := heq
  subst h1
  subst h2
  exact h

end CanvasInspect

namespace CanvasInspect

/-- C2: a frame is skipped iff its locals contain a binding named `self` or
its function name contains the substring `show`; climbing continues past
every skipped frame and stops at the first frame satisfying neither
condition, so a qualifying frame above two skipped frames is the one whose
locals are searched. -/
theorem climb_skip_characterization
    (d d1 d2 d3 : FrameData) (s t : Stack) (var : Obj) (d0 dA : FrameData) :
    (skipFrame d = true ↔
      ((d.locals.map Prod.fst).contains "self" = true ∨
        strContains "show" d.coName = true)) ∧
    (skipFrame d = true →
      climbFrameStack (Stack.cons d s) = climbFrameStack s) ∧
    (skipFrame d = false →
      climbFrameStack (Stack.cons d s) = Except.ok d) ∧
    (skipFrame d1 = true → skipFrame d2 = true → skipFrame d3 = false →
      findVariableName var d0
          (Stack.cons dA (Stack.cons d1 (Stack.cons d2 (Stack.cons d3 t))))
        = Except.ok (scanLocals var d3.locals)) := by
  refine ⟨?_, ?_, ?_, ?_⟩
  · simp [skipFrame]
  · intro h
    simp [climbFrameStack, h]
  · intro h
    simp [climbFrameStack, h]
  · intro h1 h2 h3
    simp [findVariableName, climbFrameStack, h1, h2, h3]

/-- Witness for C2: a user frame sits above a `self`-containing frame and a
frame of a function whose name contains `show`; both are skipped and the
user frame is the one searched. -/
theorem climb_skip_characterization_witness :
    findVariableName ⟨1, 0⟩ ⟨[], "currentframe"⟩
      (Stack.cons ⟨[], "find_vars"⟩
        (Stack.cons ⟨[("self", ⟨9, 0⟩)], "method"⟩
          (Stack.cons ⟨[], "do_show"⟩
            (Stack.cons ⟨[("data", ⟨1, 0⟩)], "usercode"⟩ Stack.nil))))
      = Except.ok (scanLocals ⟨1, 0⟩ [("data", ⟨1, 0⟩)]) :=
  (climb_skip_characterization ⟨[], "f"⟩ ⟨[("self", ⟨9, 0⟩)], "method"⟩
      ⟨[], "do_show"⟩ ⟨[("data", ⟨1, 0⟩)], "usercode"⟩ Stack.nil Stack.nil
      ⟨1, 0⟩ ⟨[], "currentframe"⟩ ⟨[], "find_vars"⟩).2.2.2
    (by rfl) (by rfl) (by rfl)

/-- C3: matching is governed by object identity, not value equality — with
two distinct objects `a` and `b` of equal value bound to `x` and `y` in the
chosen frame, the resolver returns `x` and never `y`, whichever of the two
bindings the iteration visits first. -/
theorem identity_governs_matching
    (a b : Obj) (d0 d1 : FrameData) (cn : String) (s3 : Stack)
    (hid : sameObject a b = false) (hvaleq : a.val = b.val)
    (hcn : strContains "show" cn = false) :
    findVariableName a d0
        (Stack.cons d1 (Stack.cons ⟨[("x", a), ("y", b)], cn⟩ s3))
      = Except.ok (some "x", some a) ∧
    findVariableName a d0
        (Stack.cons d1 (Stack.cons ⟨[("y", b), ("x", a)], cn⟩ s3))
      = Except.ok (some "x", some a) := by
  have hvused : a.val = b.val := hvaleq
  have hsame : sameObject a a = true := by simp [sameObject]
  have hx : strStartsWith "_" "x" = false := by decide
  have hy : strStartsWith "_" "y" = false := by decide
  have hk1 : ((([("x", a), ("y", b)] : List (String × Obj)).map
      Prod.fst).contains "self") = false := by rfl
  have hk2 : ((([("y", b), ("x", a)] : List (String × Obj)).map
      Prod.fst).contains "self") = false := by rfl
  have hskip1 : skipFrame ⟨[("x", a), ("y", b)], cn⟩ = false := by
    simp [skipFrame, hcn, hk1]
  have hskip2 : skipFrame ⟨[("y", b), ("x", a)], cn⟩ = false := by
    simp [skipFrame, hcn, hk2]
  constructor
  · simp [findVariableName, climbFrameStack, hskip1, scanLocals, hx, hsame]
  · simp [findVariableName, climbFrameStack, hskip2, scanLocals,
      hx, hy, hsame, hid]

/-- Witness for C3: `a = ⟨0, 5⟩` and `b = ⟨1, 5⟩` are distinct objects of
equal value. -/
theorem identity_governs_matching_witness :
    findVariableName ⟨0, 5⟩ ⟨[], "currentframe"⟩
        (Stack.cons ⟨[], "find_vars"⟩
          (Stack.cons ⟨[("x", ⟨0, 5⟩), ("y", ⟨1, 5⟩)], "usercode"⟩ Stack.nil))
      = Except.ok (some "x", some ⟨0, 5⟩) ∧
    findVariableName ⟨0, 5⟩ ⟨[], "currentframe"⟩
        (Stack.cons ⟨[], "find_vars"⟩
          (Stack.cons ⟨[("y", ⟨1, 5⟩), ("x", ⟨0, 5⟩)], "usercode"⟩ Stack.nil))
      = Except.ok (some "x", some ⟨0, 5⟩) :=
  identity_governs_matching ⟨0, 5⟩ ⟨1, 5⟩ ⟨[], "currentframe"⟩
    ⟨[], "find_vars"⟩ "usercode" Stack.nil (by rfl) (by rfl) (by rfl)

/-- C4 (code bug evidence): when the resolver is invoked with its caller at
the top of the stack (`frame.f_back.f_back` is `None`), the local `frame`
becomes `None`, `__climb_frame_stack(None)` raises inside the `try`, the
handler sets `finalFrame = None`, and `finalFrame.f_locals` on line 23 —
outside the `try` — raises an uncaught `AttributeError` instead of
returning `(None, None)`. -/
theorem resolver_raises_when_grandparent_frame_missing
    (var : Obj) (d0 d1 : FrameData) :
    findVariableName var d0 (Stack.cons d1 Stack.nil) = Except.error () :=
  rfl

end CanvasInspect

namespace CanvasInspect

/-- C5 counterexample: both frames above the start of climbing carry a
`self` binding, so climbing runs past the top of the stack. The last frame
reached (`meth`, binding `data` to the target) would yield
`("data", target)` if scanned, but the function scans the frame climbing
STARTED from and returns `(None, None)` — the claim as stated is false. -/
theorem climb_overrun_counterexample :
    findVariableName ⟨1, 0⟩ ⟨[], "currentframe"⟩
        (Stack.cons ⟨[], "find_vars"⟩
          (Stack.cons ⟨[("self", ⟨2, 0⟩)], "wrapper"⟩
            (Stack.cons ⟨[("self", ⟨3, 0⟩), ("data", ⟨1, 0⟩)], "meth"⟩
              Stack.nil)))
      = Except.ok (none, none) ∧
    scanLocals ⟨1, 0⟩ [("self", ⟨3, 0⟩), ("data", ⟨1, 0⟩)]
      = (some "data", some ⟨1, 0⟩) :=
  ⟨rfl, rfl⟩

/-- C5 amended: when climbing raises because it ran past the top of the
stack, the exception handler falls back to the frame climbing started from
(the initial candidate two levels above the resolver) — not the last frame
reached — and that frame's locals are scanned. -/
theorem climb_overrun_scans_initial_frame
    (var : Obj) (d0 d1 d2 : FrameData) (s3 : Stack)
    (h : climbFrameStack (Stack.cons d2 s3) = Except.error ()) :
    findVariableName var d0 (Stack.cons d1 (Stack.cons d2 s3))
      = Except.ok (scanLocals var d2.locals) := by
  simp [findVariableName, h]

/-- Witness for the amended C5: climbing overruns past two `self` frames
and the initial frame (`wrapper`) is the one scanned. -/
theorem climb_overrun_scans_initial_frame_witness :
    findVariableName ⟨1, 0⟩ ⟨[], "currentframe"⟩
        (Stack.cons ⟨[], "find_vars"⟩
          (Stack.cons ⟨[("self", ⟨2, 0⟩)], "wrapper"⟩
            (Stack.cons ⟨[("self", ⟨3, 0⟩), ("data", ⟨1, 0⟩)], "meth"⟩
              Stack.nil)))
      = Except.ok (scanLocals ⟨1, 0⟩ [("self", ⟨2, 0⟩)]) :=
  climb_overrun_scans_initial_frame ⟨1, 0⟩ ⟨[], "currentframe"⟩
    ⟨[], "find_vars"⟩ ⟨[("self", ⟨2, 0⟩)], "wrapper"⟩
    (Stack.cons ⟨[("self", ⟨3, 0⟩), ("data", ⟨1, 0⟩)], "meth"⟩ Stack.nil)
    (by rfl)

/-- C6: the underscore exclusion is absolute — if every binding of the
target object in the chosen frame has an underscore-prefixed name, the
resolver returns `(None, None)`. -/
theorem underscore_exclusion_absolute
    (var : Obj) (d0 d1 d2 : FrameData) (s3 : Stack) (df : FrameData)
    (hclimb : climbFrameStack (Stack.cons d2 s3) = Except.ok df)
    (h : ∀ kv ∈ df.locals,
      sameObject var kv.2 = true → strStartsWith "_" kv.1 = true) :
    findVariableName var d0 (Stack.cons d1 (Stack.cons d2 s3))
      = Except.ok (none, none) := by
  have hng : ∀ kv ∈ df.locals, goodBinding var kv = false := by
    intro kv hkv
    cases hs : sameObject var kv.2 with
    | false => simp [goodBinding, hs]
    | true => simp [goodBinding, h kv hkv hs]
  simp [findVariableName, hclimb, scanLocals_no_good var df.locals hng]

/-- Witness for C6: `_hidden` is the only binding of the target in the
qualifying frame, and resolution finds nothing. -/
theorem underscore_exclusion_absolute_witness :
    findVariableName ⟨1, 0⟩ ⟨[], "currentframe"⟩
      (Stack.cons ⟨[], "find_vars"⟩
        (Stack.cons ⟨[("_hidden", ⟨1, 0⟩)], "usercode"⟩ Stack.nil))
      = Except.ok (none, none) :=
  underscore_exclusion_absolute ⟨1, 0⟩ ⟨[], "currentframe"⟩
    ⟨[], "find_vars"⟩ ⟨[("_hidden", ⟨1, 0⟩)], "usercode"⟩ Stack.nil
    ⟨[("_hidden", ⟨1, 0⟩)], "usercode"⟩ (by rfl) (by decide)

/-- C7: the registration sink is invoked iff a name is resolved; when
invoked, the path is the single-element sequence holding the resolved name
and the second argument is the matched object (identical to the target),
and the visible result is the name alone — `none` with no sink call when
nothing is found. -/
theorem sink_called_iff_resolved
    (var : Obj) (d0 : FrameData) (s1 : Stack)
    (res : Option String × List (List String × Option Obj))
    (h : find_vars var d0 s1 = Except.ok res) :
    (res.1 = none → res.2 = []) ∧
    (∀ n, res.1 = some n →
      ∃ v, res.2 = [([n], some v)] ∧ sameObject var v = true ∧
        findVariableName var d0 s1 = Except.ok (some n, some v)) := by
  unfold find_vars at h
  cases hfv : findVariableName var d0 s1 with
  | error e => rw [hfv] at h; simp at h
  | ok p =>
    rw [hfv] at h
    obtain ⟨vname, vobj⟩ := p
    cases vname with
    | none =>
      simp only [Except.ok.injEq] at h
      subst h
      simp
    | some n0 =>
      simp only [Except.ok.injEq] at h
      subst h
      refine ⟨by simp, ?_⟩
      intro n hn
      simp only [Option.some.injEq] at hn
      subst hn
      obtain ⟨l, hl⟩ := findVariableName_ok_scan var d0 s1 (some n0, vobj) hfv
      obtain ⟨v, hv, _, _, hsame⟩ := scanLocals_some var l n0 vobj hl
      subst hv
      exact ⟨v, rfl, hsame, rfl⟩

/-- Witness for C7 at a concrete stack where `data` resolves: the sink is
called once with path `["data"]` and the matched object. -/
theorem sink_called_iff_resolved_witness :
    [([("data" : String)], some (⟨1, 0⟩ : Obj))]
      = [([("data" : String)], some (⟨1, 0⟩ : Obj))] ∧
    sameObject ⟨1, 0⟩ ⟨1, 0⟩ = true ∧
    findVariableName ⟨1, 0⟩ ⟨[], "currentframe"⟩
      (Stack.cons ⟨[], "find_vars"⟩
        (Stack.cons ⟨[("data", ⟨1, 0⟩)], "usercode"⟩ Stack.nil))
      = Except.ok (some "data", some ⟨1, 0⟩) := by
  obtain ⟨v, hv, hsame, hfind⟩ :=
    (sink_called_iff_resolved ⟨1, 0⟩ ⟨[], "currentframe"⟩
        (Stack.cons ⟨[], "find_vars"⟩
          (Stack.cons ⟨[("data", ⟨1, 0⟩)], "usercode"⟩ Stack.nil))
        (some "data", [(["data"], some ⟨1, 0⟩)]) (by rfl)).2
      "data" rfl
  have hveq : (⟨1, 0⟩ : Obj) = v := by
    simpa using congrArg (fun x => x.headI.2) hv
  subst hveq
  exact ⟨rfl, hsame, hfind⟩

end CanvasInspect

namespace CanvasInspect

/-- C8: the internal resolution result is always a well-formed pair — the
name and the object components of a normal return are absent together or
present together, never one without the other. -/
theorem resolution_result_well_formed
    (var : Obj) (d0 : FrameData) (s1 : Stack)
    (r : Option String × Option Obj)
    (h : findVariableName var d0 s1 = Except.ok r) :
    (r.1 = none ↔ r.2 = none) := by
  obtain ⟨l, hl⟩ := findVariableName_ok_scan var d0 s1 r h
  rw [← hl]
  exact scanLocals_none_iff var l

/-- Witness for C8 at a concrete no-match stack: both components are
`none` together. -/
theorem resolution_result_well_formed_witness :
    ((none : Option String) = none ↔ (none : Option Obj) = none) :=
  resolution_result_well_formed ⟨1, 0⟩ ⟨[], "currentframe"⟩
    (Stack.cons ⟨[], "find_vars"⟩
      (Stack.cons ⟨[("other", ⟨2, 0⟩)], "usercode"⟩ Stack.nil))
    (none, none) (by rfl)

/-- C9: the climbing recursion strictly descends the parent-frame chain, so
it terminates within fuel equal to the depth of the (finite) call stack:
with that much fuel the instrumented climb never runs out and computes
exactly the recursive climb's answer. -/
theorem climb_fuel_bounded_by_depth (s : Stack) (fuel : Nat)
    (h : stackDepth s < fuel) :
    climbFrameStackFuel fuel s = some (climbFrameStack s) := by
  induction s generalizing fuel with
  | nil =>
    cases fuel with
    | zero => omega
    | succ n => rfl
  | cons d rest ih =>
    cases fuel with
    | zero => omega
    | succ n =>
      cases hs : skipFrame d with
      | true =>
        have hrest : stackDepth rest < n := by
          simpa [stackDepth] using h
        simp [climbFrameStackFuel, climbFrameStack, hs, ih n hrest]
      | false =>
        simp [climbFrameStackFuel, climbFrameStack, hs]

/-- Witness for C9: a concrete three-frame chain, climbed with exactly its
depth's worth of fuel. -/
theorem climb_fuel_bounded_by_depth_witness :
    climbFrameStackFuel 4
        (Stack.cons ⟨[("self", ⟨2, 0⟩)], "m1"⟩
          (Stack.cons ⟨[("self", ⟨3, 0⟩)], "m2"⟩
            (Stack.cons ⟨[], "usercode"⟩ Stack.nil)))
      = some (climbFrameStack
          (Stack.cons ⟨[("self", ⟨2, 0⟩)], "m1"⟩
            (Stack.cons ⟨[("self", ⟨3, 0⟩)], "m2"⟩
              (Stack.cons ⟨[], "usercode"⟩ Stack.nil)))) :=
  climb_fuel_bounded_by_depth
    (Stack.cons ⟨[("self", ⟨2, 0⟩)], "m1"⟩
      (Stack.cons ⟨[("self", ⟨3, 0⟩)], "m2"⟩
        (Stack.cons ⟨[], "usercode"⟩ Stack.nil))) 4 (by decide)

end CanvasInspect

namespace DistributedLogistic

/-- C10: `submit_training_job` makes exactly one backend call, forwarding
every hyperparameter unchanged except the solver name, which is lowercased
first; the model name is always the fixed string
`classifier_logistic_regression`, and the backend's result is returned
unmodified. -/
theorem submit_training_job_forwards_params {α β : Type}
    (create : CreateCall α → β)
    (env dataset target features l2_penalty l1_penalty : α)
    (solver : String)
    (feature_rescaling convergence_threshold step_size : α)
    (lbfgs_memory_level max_iterations class_weights validation_set : α) :
    ∃ c : CreateCall α,
      submit_training_job create env dataset target features
          l2_penalty l1_penalty solver feature_rescaling
          convergence_threshold step_size lbfgs_memory_level
          max_iterations class_weights validation_set
        = (["distributed.toolkit.classifier.logistic_classifier.submit_training_job"],
            [c], create c) ∧
      c.model_name = "classifier_logistic_regression" ∧
      c.solver = solver.toLower ∧
      c.env = env ∧ c.dataset = dataset ∧ c.target = target ∧
      c.features = features ∧ c.l2_penalty = l2_penalty ∧
      c.l1_penalty = l1_penalty ∧ c.feature_rescaling = feature_rescaling ∧
      c.convergence_threshold = convergence_threshold ∧
      c.step_size = step_size ∧ c.lbfgs_memory_level = lbfgs_memory_level ∧
      c.max_iterations = max_iterations ∧ c.class_weights = class_weights ∧
      c.validation_set = validation_set :=
  ⟨CreateCall.mk dataset target "classifier_logistic_regression" env features
      validation_set l2_penalty l1_penalty feature_rescaling
      convergence_threshold step_size solver.toLower lbfgs_memory_level
      max_iterations class_weights,
    rfl, rfl, rfl, rfl, rfl, rfl, rfl, rfl, rfl, rfl, rfl, rfl, rfl, rfl,
    rfl, rfl⟩

end DistributedLogistic
